import Mathlib

/-!
Verification development for the `@epfl-si/appauth` OpenID-Connect state
machine (file `src/appauth/src/OpenIDConnect.ts` of the epfl-si
react-npm-modules repository).

The TypeScript class `OpenIDConnect` is shallowly embedded as pure Lean
functions over an explicit facade state.  JavaScript `undefined` fields are
modelled as `Option`; JavaScript numbers that can become `NaN` in the code
paths under study (the expiry arithmetic of `scheduleRenewal`) are modelled
by `JSNum`, an integer extended with a `nan` point whose comparisons are
always false, matching IEEE/JS comparison semantics.  Times are kept in whole
seconds: the source divides `Date.getTime()` (milliseconds) by 1000 before
the subtraction, so the model takes the current time `now` directly in
seconds (the fractional part plays no role in the sign logic the claims are
about); the multiplication by 1000 when arming the timer is kept.

Asynchronous effects are made explicit: callback invocations become a list of
`Ev` events, browser timers become a `TimerSys` value recording the armed,
not-yet-cancelled timers, and the outcome of each network request is an
`Except` parameter of the step function that awaits it.  The model presumes
the provider-configuration promise (`whenConfigured`) has resolved wherever
the source awaits it; the asynchronous discovery fetch and its error callback
are outside the model.
-/

deriving instance DecidableEq for Except

namespace OIDC

/-- A JavaScript number restricted to the operations the scheduler performs:
either an exact integer or `nan` (the value of arithmetic on `undefined`). -/
inductive JSNum where
  | nan : JSNum
  | num : ℤ → JSNum
deriving DecidableEq

/-- Coercion used where the source reads a possibly-`undefined` number field:
JS arithmetic on `undefined` yields `NaN`. -/
def JSNum.ofOption : Option ℤ → JSNum
  | none => JSNum.nan
  | some q => JSNum.num q

/-- JS subtraction: any operation touching `NaN` is `NaN`. -/
def JSNum.sub : JSNum → JSNum → JSNum
  | JSNum.num a, JSNum.num b => JSNum.num (a - b)
  | _, _ => JSNum.nan

/-- JS `<=` against a numeric constant: every comparison with `NaN` is false. -/
def JSNum.leb : JSNum → ℤ → Bool
  | JSNum.nan, _ => false
  | JSNum.num a, b => decide (a ≤ b)

/-- JS multiplication by a numeric constant (`renewalDelay * 1000`). -/
def JSNum.mulc : JSNum → ℤ → JSNum
  | JSNum.nan, _ => JSNum.nan
  | JSNum.num a, b => JSNum.num (a * b)

/-- JS truthiness of a possibly-`undefined` string (`""` and `undefined` are
falsy). -/
def jsTruthyStr : Option String → Bool
  | none => false
  | some s => decide (s ≠ "")

/-- JS truthiness of a possibly-`undefined` number (`0` and `undefined` are
falsy; a `NaN`-valued configuration is not modelled). -/
def jsTruthyNum : Option ℤ → Bool
  | none => false
  | some q => decide (q ≠ 0)

/-- The errors the facade reports through `callbacks.error`.  The source
interpolates a message string; the model keeps the interpolated data. -/
inductive OIDCError where
  /-- The message built at `scheduleRenewal`: the token expires in
  `expiresIn` seconds and the configured `minValiditySeconds` headroom is
  unattainable (the text ends with the words that token renewal is disabled). -/
  | unattainableHeadroom (expiresIn : JSNum) (minValidity : ℤ)
  /-- Any error object caught from an awaited operation and forwarded. -/
  | caught (e : String)
deriving DecidableEq

/-- One callback invocation on the `Callbacks` record handed to `run`. -/
inductive Ev where
  | accessToken (tok : Option String)
  | idToken (tok : String)
  | logoutDone
  | error (e : OIDCError)
deriving DecidableEq

/-- The browser timer table: `nextHandle` is the next identifier
`setTimeout` will return (browser handles are positive, so the table starts
at 1 and every handle is truthy), `live` lists the armed timers that have
neither fired nor been cancelled, with the delay (in milliseconds, possibly
`NaN`) each was armed with. -/
structure TimerSys where
  nextHandle : Nat
  live : List (Nat × JSNum)
deriving DecidableEq

/-- The empty timer table. -/
def TimerSys.init : TimerSys := { nextHandle := 1, live := [] }

/-- Models `window.setTimeout` (or the injected surrogate): arms a timer and
returns its fresh handle. -/
def TimerSys.setT (ts : TimerSys) (delayMs : JSNum) : Nat × TimerSys :=
  (ts.nextHandle,
   { nextHandle := ts.nextHandle + 1, live := ts.live ++ [(ts.nextHandle, delayMs)] })

/-- Models `window.clearTimeout`: cancels the timer with the given handle; a no-op
when that timer is no longer (or never was) armed. -/
def TimerSys.clearT (ts : TimerSys) (h : Nat) : TimerSys :=
  { nextHandle := ts.nextHandle, live := ts.live.filter (fun p => p.1 ≠ h) }

/-- The mutable private fields of the `OpenIDConnect` class that the claims
are about.  All four start out `undefined`. -/
structure FacadeState where
  refreshToken : Option String
  tokenExpiresEpoch : Option ℤ
  pkceCodeVerifier : Option String
  timeout : Option Nat
deriving DecidableEq

/-- A freshly constructed facade. -/
def FacadeState.init : FacadeState :=
  { refreshToken := none, tokenExpiresEpoch := none,
    pkceCodeVerifier := none, timeout := none }

/-- The configuration fields of `OpenIDConnectConfig` that the scheduler
reads. -/
structure OpenIDConnectConfig where
  authServerUrl : String
  minValiditySeconds : Option ℤ
deriving DecidableEq

namespace OpenIDConnect

/-- Method expiresInSeconds(): `this.tokenExpiresEpoch - (new Date().getTime() / 1000)`.
Here `now` is the current time in seconds; an `undefined` expiry makes the
result `NaN`. -/
def expiresInSeconds (st : FacadeState) (now : ℤ) : JSNum :=
  JSNum.sub (JSNum.ofOption st.tokenExpiresEpoch) (JSNum.num now)

/-- Method stop(): `if (this.timeout) this.timeouts.clearTimeout(this.timeout)`.
The handle field itself is not cleared by the source, so only the timer
table changes. -/
def stop (st : FacadeState) (ts : TimerSys) : TimerSys :=
  match st.timeout with
  | none => ts
  | some h => ts.clearT h

/-- Result of a facade step that can touch the state, the timer table and
the callbacks. -/
structure StepResult where
  state : FacadeState
  timers : TimerSys
  events : List Ev
deriving DecidableEq

/-- Method scheduleRenewal(), translated clause by clause:
returns immediately when `minValiditySeconds` is falsy; computes
`renewalDelay = expiresInSeconds() - minValiditySeconds`; reports the
unattainable-headroom error when `renewalDelay <= 0` (and, lacking a
`return` there, falls through); calls `this.stop()`; arms a new timer with
delay `renewalDelay * 1000` and stores its handle in `this.timeout`. -/
def scheduleRenewal (cfg : OpenIDConnectConfig) (st : FacadeState) (ts : TimerSys)
    (now : ℤ) : StepResult :=
  if ¬ jsTruthyNum cfg.minValiditySeconds then
    { state := st, timers := ts, events := [] }
  else
    let m := cfg.minValiditySeconds.getD 0
    let e := expiresInSeconds st now
    let renewalDelay := JSNum.sub e (JSNum.num m)
    let evs := if renewalDelay.leb 0 then [Ev.error (OIDCError.unattainableHeadroom e m)] else []
    let ts1 := stop st ts
    let armed := ts1.setT (renewalDelay.mulc 1000)
    { state := { st with timeout := some armed.1 }, timers := armed.2, events := evs }

end OpenIDConnect

/-! URL credential parser.  The class `SmarterQueryStringUtils` of the source
overrides `parse` and adds `getURLRemainder`; both call `parseQueryString`
and `stringify`, which it inherits from the wrapped library and which are
therefore modelled from the specification (section 4.2). -/

/-- Character-level split on the ampersand separator. -/
def splitOnAmp : List Char → List (List Char)
  | [] => [[]]
  | c :: cs =>
      if c = '&' then [] :: splitOnAmp cs
      else
        match splitOnAmp cs with
        | [] => [[c]]
        | g :: gs => (c :: g) :: gs

/-- Character-level split of one `key=value` piece at its first equals sign;
a piece without an equals sign is not a parameter. -/
def splitEq : List Char → Option (List Char × List Char)
  | [] => none
  | c :: cs =>
      if c = '=' then some ([], cs)
      else (splitEq cs).map (fun p => (c :: p.1, p.2))

/-- Drops the single leading `?`, `#` or `&` separator, if present. -/
def stripSep : List Char → List Char
  | [] => []
  | c :: cs => if c = '?' ∨ c = '#' ∨ c = '&' then cs else c :: cs

/-- Joins pieces back with ampersands (character level). -/
def joinAmp : List (List Char) → List Char
  | [] => []
  | [b] => b
  | b :: bs => b ++ '&' :: joinAmp bs

/-- Modelled from the spec: `parseQueryString`, inherited from the wrapped
library's `BasicQueryStringUtils` (the library is not part of this
repository).  It strips one leading separator and splits the rest on
ampersands, each piece at its first equals sign, yielding the map of
parameters.  Percent decoding and JS-object key semantics (a duplicate key
overwrites) are not modelled; the theorems below restrict their inputs to
canonical parameter lists, on which both are the identity. -/
def parseQueryString (s : String) : List (String × String) :=
  ((splitOnAmp (stripSep s.data)).filterMap splitEq).map
    (fun q => (String.mk q.1, String.mk q.2))

/-- Modelled from the spec: `stringify`, inherited from the wrapped library,
joins the parameters back with ampersands. -/
def stringifyParams (ps : List (String × String)) : String :=
  String.mk (joinAmp (ps.map (fun p => p.1.data ++ '=' :: p.2.data)))

/-- One parameter rendered as a `key=value` character block (the building
block of `stringifyParams`, named for the proofs). -/
def encodeParam (p : String × String) : List Char := p.1.data ++ '=' :: p.2.data

/-- JS property read on the parameter map (`queryParams["state"]` and
friends). -/
def lookupParam (ps : List (String × String)) (k : String) : Option String :=
  (ps.find? (fun p => p.1 == k)).map Prod.snd

/-- The subset of `window.location` the source reads (a `LocationLike`):
`search` carries its leading `?` and `hash` its leading `#` when non-empty. -/
structure LocationLike where
  origin : String
  pathname : String
  search : String
  hash : String
deriving DecidableEq

/-- Models `window.location.toString()`. -/
def locToString (loc : LocationLike) : String :=
  loc.origin ++ loc.pathname ++ loc.search ++ loc.hash

namespace SmarterQueryStringUtils

/-- Override parse(input): parses the query string first; when the resulting
map is empty it falls back to the fragment.  Returns the parameters together
with the `useHash` flag the method stores on the instance. -/
def parse (input : LocationLike) : List (String × String) × Bool :=
  let maybeInQueryParams := parseQueryString input.search
  if maybeInQueryParams ≠ [] then (maybeInQueryParams, false)
  else (parseQueryString input.hash, true)

/-- The four protocol-reserved parameters deleted by `getURLRemainder`. -/
def protocolParams : List String := ["error", "state", "code", "session_state"]

/-- Method getURLRemainder(input): re-parses the component selected by the
stored `useHash` flag (`none` models an instance whose `parse` was never
invoked, which JS reads as falsy, selecting the query string), deletes the
four protocol parameters, restringifies, and splices the result back while
keeping the other component verbatim. -/
def getURLRemainder (useHash : Option Bool) (input : LocationLike) : String :=
  let uh := useHash.getD false
  let params := parseQueryString (if uh then input.hash else input.search)
  let params := params.filter (fun p => decide (p.1 ∉ protocolParams))
  let newParams := stringifyParams params
  let search := if uh then input.search
                else if newParams ≠ "" then "?" ++ newParams else ""
  let hash := if uh then (if newParams ≠ "" then "#" ++ newParams else "")
              else input.hash
  input.origin ++ input.pathname ++ search ++ hash

end SmarterQueryStringUtils

/-! Storage.  The pending authorization request (CSRF state and, in durable
mode, the PKCE code verifier) crosses the redirect through a
`StorageBackend`: either caller-supplied durable storage or the
`FakeOAuth2Store` of the source.  The wrapped library serializes the request
to JSON before storing; serialization is modelled as the identity on a small
value type. -/

/-- The part of a stored authorization request the facade reads back:
`state` and `internal.code_verifier`. -/
structure PendingRequest where
  state : String
  code_verifier : Option String
deriving DecidableEq

/-- A value held in a storage backend (JSON serialization modelled as the
identity). -/
inductive StoredVal where
  | str (s : String)
  | req (r : PendingRequest)
  | config
  | unhandled
deriving DecidableEq

/-- Durable storage content. -/
abbrev Store := List (String × StoredVal)

/-- Read from durable storage. -/
def lookupStore (store : Store) (k : String) : Option StoredVal :=
  (List.find? (fun p => p.1 == k) store).map Prod.snd

/-- Write to durable storage (a later write to the same key wins on
lookup). -/
def setStore (store : Store) (k : String) (v : StoredVal) : Store :=
  (k, v) :: store

/-- String.prototype.endsWith, evaluated on the character lists. -/
def strEndsWith (s suffix : String) : Bool :=
  List.isSuffixOf suffix.data s.data

/-- Method FakeOAuth2Store.getItem(key), translated branch by branch.  The
`state` argument is the field captured by the constructor, which parsed the
browser location: `(new SmarterQueryStringUtils).parse(location).state`.
A falsy state makes the store pretend it knows nothing; otherwise the key
shape selects the raw state, a serialized request holding only the state
(hence never a PKCE verifier), the dead configuration branch, or the
diagnostic placeholder. -/
def FakeOAuth2Store.getItem (state : Option String) (key : String) : Option StoredVal :=
  if ¬ jsTruthyStr state then none
  else
    let s := state.getD ""
    if key = "appauth_current_authorization_request" then some (StoredVal.str s)
    else if strEndsWith key ("_appauth_authorization_request") then
      some (StoredVal.req { state := s, code_verifier := none })
    else if strEndsWith key ("_appauth_authorization_service_configuration") then
      some StoredVal.config
    else some StoredVal.unhandled

/-- The storage backend the facade was constructed with: caller-supplied
durable storage, or (by default) the `FakeOAuth2Store` over the current
location. -/
inductive StorageMode where
  | durable (store : Store)
  | ephemeral
deriving DecidableEq

/-- Truthiness of `this.fakeStore` (set if and only if no storage was
supplied). -/
def hasFakeStore : StorageMode → Bool
  | StorageMode.durable _ => false
  | StorageMode.ephemeral => true

/-- Modelled from the spec: the pending-request lookup performed by the
wrapped library's redirect-completion step (section 4.5, step 2): read the
handle under the well-known key, and if it is truthy read and deserialize
the request stored under `{handle}_appauth_authorization_request`. -/
def readPendingRequestVia (get : String → Option StoredVal) : Option PendingRequest :=
  match get "appauth_current_authorization_request" with
  | some (StoredVal.str handle) =>
      if handle ≠ "" then
        match get (handle ++ "_appauth_authorization_request") with
        | some (StoredVal.req r) => some r
        | _ => none
      else none
  | _ => none

/-- The pending request visible to redirect completion: durable storage is a
genuine lookup; the ephemeral path goes through `FakeOAuth2Store.getItem`
with the state the fake store captured from the location at construction
time. -/
def readPendingRequest (sm : StorageMode) (loc : LocationLike) : Option PendingRequest :=
  match sm with
  | StorageMode.durable store => readPendingRequestVia (lookupStore store)
  | StorageMode.ephemeral =>
      readPendingRequestVia
        (FakeOAuth2Store.getItem (lookupParam (SmarterQueryStringUtils.parse loc).1 ("state")))

/-- Modelled from the spec: `performAuthorizationRequest` of the wrapped
library persists the pending request (CSRF state and, when PKCE is enabled,
the code verifier) before navigating away (section 4.4); with the fake
store every write is ignored (`setItem` is a no-op in `FakeOAuth2Store`). -/
def performAuthorizationRequest (sm : StorageMode) (stateValue verifier : String)
    (usePkce : Bool) : StorageMode :=
  match sm with
  | StorageMode.ephemeral => StorageMode.ephemeral
  | StorageMode.durable store =>
      StorageMode.durable
        (setStore
          (setStore store (stateValue ++ "_appauth_authorization_request")
            (StoredVal.req { state := stateValue,
                             code_verifier := if usePkce then some verifier else none }))
          ("appauth_current_authorization_request") (StoredVal.str stateValue))

namespace OpenIDConnect

/-- Method redirectForLogin: `const usePkce = ! this.fakeStore`, builds the
authorization request with that `usePkce` flag and hands it to the library,
which generates and persists the CSRF state and (when PKCE is on) the code
verifier.  The generated random values arrive as parameters; the function
returns the `usePkce` flag and the storage after the persist step. -/
def redirectForLogin (sm : StorageMode) (stateValue verifier : String) :
    Bool × StorageMode :=
  let usePkce := ! hasFakeStore sm
  (usePkce, performAuthorizationRequest sm stateValue verifier usePkce)

/-- Result of `consumeOAuth2CodeFromBrowserLocation`: the facade state after
the listener ran, the list of address replacements performed
(`window.history.replaceState`, each entry one scrub), and the returned
code, absence, or thrown authorization error. -/
structure ConsumeResult where
  state : FacadeState
  scrubs : List String
  outcome : Except String (Option String)
deriving DecidableEq

/-- Method consumeOAuth2CodeFromBrowserLocation, composed with the wrapped
library's `completeAuthorizationRequestIfPossible` (modelled from the spec,
section 4.5): when a pending request exists, the library parses the location
through the `parser` instance (setting its `useHash`) and notifies the
listener when the returned `state` strictly equals the pending request's;
the listener records a truthy PKCE verifier from the request and either the
response code or the error.  The address is then scrubbed through
`parser.getURLRemainder` exactly once, before the code is returned, the
error thrown, or `undefined` returned.  When no pending request exists the
parser never runs, so its `useHash` stays undefined. -/
def consumeOAuth2CodeFromBrowserLocation (sm : StorageMode) (loc : LocationLike)
    (st : FacadeState) : ConsumeResult :=
  match readPendingRequest sm loc with
  | none =>
      { state := st,
        scrubs := [SmarterQueryStringUtils.getURLRemainder none loc],
        outcome := Except.ok none }
  | some req =>
      let parsed := SmarterQueryStringUtils.parse loc
      let params := parsed.1
      let url := SmarterQueryStringUtils.getURLRemainder (some parsed.2) loc
      if lookupParam params ("state") = some req.state then
        let st1 := if jsTruthyStr req.code_verifier then
                     { st with pkceCodeVerifier := req.code_verifier }
                   else st
        let err := lookupParam params ("error")
        if jsTruthyStr err then
          { state := st1, scrubs := [url], outcome := Except.error (err.getD "") }
        else
          let code := lookupParam params ("code")
          if jsTruthyStr code then
            { state := st1, scrubs := [url], outcome := Except.ok code }
          else
            { state := st1, scrubs := [url], outcome := Except.ok none }
      else
        { state := st, scrubs := [url], outcome := Except.ok none }

/-- The client configuration fields the token exchange reads. -/
structure ClientConfig where
  clientId : String
  clientSecret : Option String
  redirectUri : Option String
deriving DecidableEq

/-- Method getRedirectUri: `this.client.redirectUri || window.location.toString()`. -/
def getRedirectUri (client : ClientConfig) (locString : String) : String :=
  match client.redirectUri with
  | some u => if u ≠ "" then u else locString
  | none => locString

/-- The token request the exchange sends, field by field as constructed at
`new TokenRequest({...})`.  The `extras` map is
`initialOauth2code ? { code_verifier: this.pkceCodeVerifier } : {}`; a JS
property holding `undefined` is indistinguishable from an absent one under
property access, and the wire encoding drops falsy values, so the single
possible entry is modelled as an `Option`. -/
structure TokenRequestModel where
  client_id : String
  client_secret : Option String
  redirect_uri : String
  grant_type : String
  code : Option String
  refresh_token : Option String
  extras_code_verifier : Option String
deriving DecidableEq

/-- Constant GRANT_TYPE_AUTHORIZATION_CODE of the wrapped library. -/
def GRANT_TYPE_AUTHORIZATION_CODE : String := "authorization_code"

/-- Constant GRANT_TYPE_REFRESH_TOKEN of the wrapped library. -/
def GRANT_TYPE_REFRESH_TOKEN : String := "refresh_token"

/-- The `new TokenRequest({...})` construction at the top of
`obtainAndDispatchTokens`. -/
def buildTokenRequest (client : ClientConfig) (locString : String)
    (st : FacadeState) (initialOauth2code : Option String) : TokenRequestModel :=
  { client_id := client.clientId,
    client_secret := client.clientSecret,
    redirect_uri := getRedirectUri client locString,
    grant_type := if jsTruthyStr initialOauth2code then GRANT_TYPE_AUTHORIZATION_CODE
                  else GRANT_TYPE_REFRESH_TOKEN,
    code := if jsTruthyStr initialOauth2code then initialOauth2code else none,
    refresh_token := st.refreshToken,
    extras_code_verifier := if jsTruthyStr initialOauth2code then st.pkceCodeVerifier
                            else none }

/-- A successful response of `performTokenRequest`.  The wrapped library's
`TokenResponse` type makes `accessToken` mandatory; the other two tokens are
optional. -/
structure TokenResponseModel where
  accessToken : String
  refreshToken : Option String
  idToken : Option String
deriving DecidableEq

/-- Result of `obtainAndDispatchTokens`: the built request is exposed so the
PKCE claims can inspect it; `outcome` is the promise of the method
(rejections of `performTokenRequest` propagate to the caller). -/
structure ExchangeResult where
  state : FacadeState
  timers : TimerSys
  events : List Ev
  request : TokenRequestModel
  outcome : Except String Unit
deriving DecidableEq

/-- Method obtainAndDispatchTokens(initialOauth2code): builds the token
request, awaits `performTokenRequest` (outcome supplied as `fetched`); on
success decodes the ID token when one is truthy (`decodedExp` is the
environment-supplied outcome of `decodeJWT` plus the `exp` truthiness check;
a decode exception is only logged), stores a truthy refresh token, dispatches
the access token callback unconditionally and the ID token callback when one
is present, and finally schedules renewal when the response carried a
refresh token. -/
def obtainAndDispatchTokens (cfg : OpenIDConnectConfig) (client : ClientConfig)
    (locString : String) (st : FacadeState) (ts : TimerSys)
    (initialOauth2code : Option String)
    (fetched : Except String TokenResponseModel)
    (decodedExp : Except Unit (Option ℤ)) (now : ℤ) : ExchangeResult :=
  let request := buildTokenRequest client locString st initialOauth2code
  match fetched with
  | Except.error e =>
      { state := st, timers := ts, events := [], request := request,
        outcome := Except.error e }
  | Except.ok tokens =>
      let st1 := if jsTruthyStr tokens.idToken then
                   match decodedExp with
                   | Except.ok (some exp) => { st with tokenExpiresEpoch := some exp }
                   | _ => st
                 else st
      let st2 := if jsTruthyStr tokens.refreshToken then
                   { st1 with refreshToken := tokens.refreshToken }
                 else st1
      let evs := Ev.accessToken (some tokens.accessToken) ::
                 (if jsTruthyStr tokens.idToken then [Ev.idToken (tokens.idToken.getD "")]
                  else [])
      if jsTruthyStr tokens.refreshToken then
        let sr := scheduleRenewal cfg st2 ts now
        { state := sr.state, timers := sr.timers, events := evs ++ sr.events,
          request := request, outcome := Except.ok () }
      else
        { state := st2, timers := ts, events := evs, request := request,
          outcome := Except.ok () }

/-- Result of `run`: `returns` distinguishes resolving with `true`, with
`false`, with `undefined` (the implicit return of the catch path), and a
rejection, which the try/catch of `run` makes unreachable. -/
structure RunResult where
  state : FacadeState
  timers : TimerSys
  scrubs : List String
  events : List Ev
  tokenRequest : Option TokenRequestModel
  returns : Except String (Option Bool)
deriving DecidableEq

/-- Method run(callbacks): consumes the redirect-back parameters; with no
code it returns `false`; with a code it exchanges it and returns `true`;
every error caught by the surrounding try block is forwarded to
`callbacks.error`, after which the method falls through without a return
statement, resolving with `undefined`.  The asynchronous discovery kick-off
is outside the model (its failure only fires the error callback later). -/
def run (cfg : OpenIDConnectConfig) (client : ClientConfig) (sm : StorageMode)
    (loc : LocationLike) (st : FacadeState) (ts : TimerSys)
    (fetched : Except String TokenResponseModel)
    (decodedExp : Except Unit (Option ℤ)) (now : ℤ) : RunResult :=
  let c := consumeOAuth2CodeFromBrowserLocation sm loc st
  match c.outcome with
  | Except.error e =>
      { state := c.state, timers := ts, scrubs := c.scrubs,
        events := [Ev.error (OIDCError.caught e)], tokenRequest := none,
        returns := Except.ok none }
  | Except.ok none =>
      { state := c.state, timers := ts, scrubs := c.scrubs, events := [],
        tokenRequest := none, returns := Except.ok (some false) }
  | Except.ok (some code) =>
      let o := obtainAndDispatchTokens cfg client (locToString loc) c.state ts
                 (some code) fetched decodedExp now
      match o.outcome with
      | Except.error e =>
          { state := o.state, timers := o.timers, scrubs := c.scrubs,
            events := o.events ++ [Ev.error (OIDCError.caught e)],
            tokenRequest := some o.request, returns := Except.ok none }
      | Except.ok _ =>
          { state := o.state, timers := o.timers, scrubs := c.scrubs,
            events := o.events, tokenRequest := some o.request,
            returns := Except.ok (some true) }

/-- Result of `logout`. -/
structure LogoutResult where
  state : FacadeState
  timers : TimerSys
  events : List Ev
  returns : Except String Unit
deriving DecidableEq

/-- Method logout(): calls `stop()`, then awaits `revokeTokens()` inside a
try block whose finally clause clears the refresh token and the expiry and
fires `callbacks.logout()`.  There is no catch clause: after the finally
clause runs, a revocation rejection propagates out of `logout()`. -/
def logout (st : FacadeState) (ts : TimerSys)
    (revocation : Except String Bool) : LogoutResult :=
  let ts1 := stop st ts
  let st1 := { st with refreshToken := none, tokenExpiresEpoch := none }
  match revocation with
  | Except.ok _ =>
      { state := st1, timers := ts1, events := [Ev.logoutDone], returns := Except.ok () }
  | Except.error e =>
      { state := st1, timers := ts1, events := [Ev.logoutDone], returns := Except.error e }

/-- Method login(): `this.whenConfigured.then((config) => this.redirectForLogin(config))`
with no rejection handler and the resulting promise discarded, so the
outcome of `redirectForLogin` passes through unhandled. -/
def login (redirectForLoginOutcome : Except String Unit) : Except String Unit :=
  redirectForLoginOutcome

/-- The callback armed by `scheduleRenewal` (the timer table passed in is the
one after the event loop removed the fired timer): awaits
`obtainAndDispatchTokens()` and reschedules on success; the catch clause
forwards any error to `callbacks.error`. -/
def onRenewalTimerFired (cfg : OpenIDConnectConfig) (client : ClientConfig)
    (locString : String) (st : FacadeState) (ts : TimerSys)
    (fetched : Except String TokenResponseModel)
    (decodedExp : Except Unit (Option ℤ)) (now : ℤ) : StepResult × TokenRequestModel :=
  let o := obtainAndDispatchTokens cfg client locString st ts none fetched decodedExp now
  match o.outcome with
  | Except.ok _ =>
      let sr := scheduleRenewal cfg o.state o.timers now
      ({ state := sr.state, timers := sr.timers, events := o.events ++ sr.events },
       o.request)
  | Except.error e =>
      ({ state := o.state, timers := o.timers,
         events := o.events ++ [Ev.error (OIDCError.caught e)] }, o.request)

end OpenIDConnect

/-- Canonical characters for one parameter: no separator inside the key, no
ampersand inside the value. -/
def CanonChars (p : String × String) : Prop :=
  '&' ∉ p.1.data ∧ '=' ∉ p.1.data ∧ '&' ∉ p.2.data

instance (p : String × String) : Decidable (CanonChars p) := by
  unfold CanonChars; infer_instance

/-- Canonical parameter list: canonical characters and no duplicate keys (a
JS object cannot hold duplicates). -/
def CanonParams (ps : List (String × String)) : Prop :=
  (∀ p ∈ ps, CanonChars p) ∧ (ps.map Prod.fst).Nodup

instance (ps : List (String × String)) : Decidable (CanonParams ps) := by
  unfold CanonParams; infer_instance

/-- The canonical search component carrying the parameters `qs`. -/
def searchOf (qs : List (String × String)) : String :=
  if qs = [] then "" else "?" ++ stringifyParams qs

/-- The canonical hash component carrying the parameters `hs`. -/
def hashOf (hs : List (String × String)) : String :=
  if hs = [] then "" else "#" ++ stringifyParams hs

/-! Concrete fixtures used by the closed theorems. -/

/-- A durable store holding a pending request for state `xyz` with PKCE
verifier `v1`. -/
def exStore : Store :=
  setStore
    (setStore [] ("xyz_appauth_authorization_request")
      (StoredVal.req { state := "xyz", code_verifier := some "v1" }))
    ("appauth_current_authorization_request") (StoredVal.str "xyz")

/-- The address after a successful provider redirect: code and state in the
query string. -/
def exLocCode : LocationLike :=
  { origin := "https://app.example", pathname := "/",
    search := "?code=abc&state=xyz", hash := "" }

/-- An address whose query carries an unrelated parameter while the protocol
parameters sit in the fragment. -/
def exLocBoth : LocationLike :=
  { origin := "https://app.example", pathname := "/",
    search := "?foo=1", hash := "#code=abc&state=xyz" }

/-- A configuration without automatic renewal. -/
def exCfg : OpenIDConnectConfig :=
  { authServerUrl := "https://idp.example/realm", minValiditySeconds := none }

/-- A configuration requesting 300 seconds of renewal headroom. -/
def exCfg300 : OpenIDConnectConfig :=
  { authServerUrl := "https://idp.example/realm", minValiditySeconds := some 300 }

/-- A client registered as `c1`. -/
def exClient : OpenIDConnect.ClientConfig :=
  { clientId := "c1", clientSecret := none, redirectUri := some "https://app.example/" }

/-- The timer-table invariant the facade maintains: every armed timer is the
one `this.timeout` points at, timer handles are unique and below the next
fresh handle, and handles stay positive (hence truthy). -/
def TimerInv (st : FacadeState) (ts : TimerSys) : Prop :=
  (∀ p ∈ ts.live, some p.1 = st.timeout) ∧
  (ts.live.map Prod.fst).Nodup ∧
  (∀ p ∈ ts.live, p.1 < ts.nextHandle) ∧
  0 < ts.nextHandle ∧
  (∀ h, st.timeout = some h → 0 < h)

theorem timerInv_init : TimerInv FacadeState.init TimerSys.init := by
  refine ⟨?_, ?_, ?_, ?_, ?_⟩ <;> simp [TimerSys.init, FacadeState.init]

theorem timerInv_live_length_le_one {st : FacadeState} {ts : TimerSys}
    (h : TimerInv st ts) : ts.live.length ≤ 1 := by
  obtain ⟨hall, hnodup, -, -, -⟩ := h
  match hlive : ts.live with
  | [] => simp
  | [p] => simp
  | p :: q :: rest =>
    exfalso
    have hp : some p.1 = st.timeout := hall p (by simp [hlive])
    have hq : some q.1 = st.timeout := hall q (by simp [hlive])
    have hpq : p.1 = q.1 := by
      have := hp.trans hq.symm
      exact Option.some.inj this
    rw [hlive] at hnodup
    simp [List.nodup_cons] at hnodup
    exact hnodup.1.1 hpq

/-- After `stop`, no timer of the facade is armed (given the invariant). -/
theorem stop_live_nil {st : FacadeState} {ts : TimerSys} (h : TimerInv st ts) :
    (OpenIDConnect.stop st ts).live = [] := by
  obtain ⟨hall, -, -, -, -⟩ := h
  unfold OpenIDConnect.stop
  match hto : st.timeout with
  | none =>
    cases hlive : ts.live with
    | nil => simp [hlive]
    | cons p rest =>
      have := hall p (by simp [hlive])
      rw [hto] at this
      exact absurd this (by simp)
  | some k =>
    simp only [TimerSys.clearT]
    rw [List.filter_eq_nil_iff]
    intro p hp
    have := hall p hp
    rw [hto] at this
    have : p.1 = k := Option.some.inj this
    simp [this]

theorem stop_idempotent (st : FacadeState) (ts : TimerSys) :
    OpenIDConnect.stop st (OpenIDConnect.stop st ts) = OpenIDConnect.stop st ts := by
  unfold OpenIDConnect.stop
  match st.timeout with
  | none => rfl
  | some k =>
    simp only [TimerSys.clearT, TimerSys.mk.injEq, true_and]
    rw [List.filter_filter]
    apply List.filter_congr
    intro p _
    simp

/-- Lemma: `scheduleRenewal` preserves the timer-table invariant. -/
theorem scheduleRenewal_preserves_inv (cfg : OpenIDConnectConfig)
    {st : FacadeState} {ts : TimerSys} (now : ℤ) (h : TimerInv st ts) :
    TimerInv (OpenIDConnect.scheduleRenewal cfg st ts now).state
             (OpenIDConnect.scheduleRenewal cfg st ts now).timers := by
  unfold OpenIDConnect.scheduleRenewal
  by_cases htr : jsTruthyNum cfg.minValiditySeconds
  · simp only [htr, not_true_eq_false, if_false]
    have hnil := stop_live_nil h
    have hnext : (OpenIDConnect.stop st ts).nextHandle = ts.nextHandle := by
      unfold OpenIDConnect.stop
      match st.timeout with
      | none => rfl
      | some k => rfl
    obtain ⟨-, -, -, hpos, -⟩ := h
    refine ⟨?_, ?_, ?_, ?_, ?_⟩
    · intro p hp
      simp only [TimerSys.setT, hnil] at hp
      simp only [List.nil_append, List.mem_singleton] at hp
      simp [TimerSys.setT, hp]
    · simp [TimerSys.setT, hnil]
    · intro p hp
      simp only [TimerSys.setT, hnil] at hp ⊢
      simp only [List.nil_append, List.mem_singleton] at hp
      simp [hp]
    · simp [TimerSys.setT]
    · intro k hk
      simp only [TimerSys.setT] at hk
      have : k = (OpenIDConnect.stop st ts).nextHandle := by
        exact (Option.some.inj hk).symm
      rw [this, hnext]
      exact hpos
  · simp only [htr, not_false_eq_true, if_true]
    exact h

/-- With a truthy `minValiditySeconds`, `scheduleRenewal` always leaves
exactly one armed timer (given the invariant). -/
theorem scheduleRenewal_arms_one (cfg : OpenIDConnectConfig)
    {st : FacadeState} {ts : TimerSys} (now : ℤ)
    (h : TimerInv st ts) (htr : jsTruthyNum cfg.minValiditySeconds = true) :
    (OpenIDConnect.scheduleRenewal cfg st ts now).timers.live.length = 1 := by
  unfold OpenIDConnect.scheduleRenewal
  have hnil := stop_live_nil h
  simp [htr, TimerSys.setT, hnil]


/-! Helper lemmas about the character-level parser. -/

theorem joinAmp_cons (b c : List Char) (bs : List (List Char)) :
    joinAmp (b :: c :: bs) = b ++ '&' :: joinAmp (c :: bs) := rfl

theorem splitOnAmp_no_amp {l : List Char} (h : '&' ∉ l) : splitOnAmp l = [l] := by
  induction l with
  | nil => rfl
  | cons c cs ih =>
    have hc : ¬ (c = '&') := fun hc => h (hc ▸ List.mem_cons_self c cs)
    have hcs : '&' ∉ cs := fun hm => h (List.mem_cons_of_mem c hm)
    simp [splitOnAmp, hc, ih hcs]

theorem splitOnAmp_append {a : List Char} (r : List Char) (h : '&' ∉ a) :
    splitOnAmp (a ++ '&' :: r) = a :: splitOnAmp r := by
  induction a with
  | nil => simp [splitOnAmp]
  | cons c cs ih =>
    have hc : ¬ (c = '&') := fun hc => h (hc ▸ List.mem_cons_self c cs)
    have hcs : '&' ∉ cs := fun hm => h (List.mem_cons_of_mem c hm)
    simp [splitOnAmp, hc, ih hcs]

theorem splitEq_encode {k : List Char} (v : List Char) (h : '=' ∉ k) :
    splitEq (k ++ '=' :: v) = some (k, v) := by
  induction k with
  | nil => simp [splitEq]
  | cons c cs ih =>
    have hc : ¬ (c = '=') := fun hc => h (hc ▸ List.mem_cons_self c cs)
    have hcs : '=' ∉ cs := fun hm => h (List.mem_cons_of_mem c hm)
    simp [splitEq, hc, ih hcs]

theorem amp_not_mem_encodeParam {p : String × String} (h : CanonChars p) :
    '&' ∉ encodeParam p := by
  obtain ⟨h1, -, h3⟩ := h
  intro hm
  simp only [encodeParam, List.mem_append, List.mem_cons] at hm
  rcases hm with hm | hm | hm
  · exact h1 hm
  · exact absurd hm (by decide)
  · exact h3 hm

theorem parseBlocks (ps : List (String × String)) (h : ∀ p ∈ ps, CanonChars p) :
    (splitOnAmp (joinAmp (ps.map encodeParam))).filterMap splitEq
      = ps.map (fun p => (p.1.data, p.2.data)) := by
  induction ps with
  | nil => rfl
  | cons p rest ih =>
    have hp := h p (List.mem_cons_self _ _)
    have hrest : ∀ q ∈ rest, CanonChars q := fun q hq => h q (List.mem_cons_of_mem _ hq)
    have hamp := amp_not_mem_encodeParam hp
    cases rest with
    | nil =>
      simp only [List.map_cons, List.map_nil, joinAmp]
      rw [splitOnAmp_no_amp hamp]
      simp only [List.filterMap]
      rw [show encodeParam p = p.1.data ++ '=' :: p.2.data from rfl, splitEq_encode _ hp.2.1]
    | cons q rest2 =>
      simp only [List.map_cons, joinAmp_cons]
      rw [splitOnAmp_append _ hamp]
      rw [List.filterMap_cons]
      rw [show encodeParam p = p.1.data ++ '=' :: p.2.data from rfl, splitEq_encode _ hp.2.1]
      simp only [List.map_cons] at ih ⊢
      rw [ih hrest]

/-- Round trip: on canonical parameter lists, parsing the canonical search
string gives back the parameters. -/
theorem parseQueryString_stringify (ps : List (String × String))
    (h : ∀ p ∈ ps, CanonChars p) :
    parseQueryString ("?" ++ stringifyParams ps) = ps := by
  unfold parseQueryString stringifyParams
  have hdata : ("?" ++ String.mk (joinAmp (ps.map (fun p => p.1.data ++ '=' :: p.2.data)))).data
      = '?' :: joinAmp (ps.map encodeParam) := rfl
  rw [hdata]
  have hstrip : stripSep ('?' :: joinAmp (ps.map encodeParam))
      = joinAmp (ps.map encodeParam) := by
    simp [stripSep]
  rw [hstrip, parseBlocks ps h]
  rw [List.map_map]
  have hid : ((fun q : List Char × List Char => (String.mk q.1, String.mk q.2)) ∘
      fun p : String × String => (p.1.data, p.2.data)) = id := by
    funext p
    rfl
  rw [hid, List.map_id]

/-- The fragment variant of the round trip. -/
theorem parseQueryString_stringify_hash (ps : List (String × String))
    (h : ∀ p ∈ ps, CanonChars p) :
    parseQueryString ("#" ++ stringifyParams ps) = ps := by
  unfold parseQueryString stringifyParams
  have hdata : ("#" ++ String.mk (joinAmp (ps.map (fun p => p.1.data ++ '=' :: p.2.data)))).data
      = '#' :: joinAmp (ps.map encodeParam) := rfl
  rw [hdata]
  have hstrip : stripSep ('#' :: joinAmp (ps.map encodeParam))
      = joinAmp (ps.map encodeParam) := by
    simp [stripSep]
  rw [hstrip, parseBlocks ps h]
  rw [List.map_map]
  have hid : ((fun q : List Char × List Char => (String.mk q.1, String.mk q.2)) ∘
      fun p : String × String => (p.1.data, p.2.data)) = id := by
    funext p
    rfl
  rw [hid, List.map_id]

theorem stringifyParams_nil : stringifyParams [] = "" := rfl

theorem stringifyParams_ne_empty (p : String × String) (rest : List (String × String)) :
    stringifyParams (p :: rest) ≠ "" := by
  unfold stringifyParams
  intro h
  have hd : joinAmp ((p :: rest).map (fun p => p.1.data ++ '=' :: p.2.data)) = [] :=
    congrArg String.data h
  cases rest with
  | nil => simp [joinAmp] at hd
  | cons q r2 =>
    rw [List.map_cons, List.map_cons, joinAmp_cons] at hd
    simp at hd

theorem strAppendEmpty (s : String) : s ++ "" = s := by
  rw [show s ++ "" = String.mk (s.data ++ []) from rfl, List.append_nil]

theorem parseQueryString_empty : parseQueryString "" = [] := rfl

/-! Helper lemmas about storage. -/

theorem lookupStore_set_same (store : Store) (k : String) (v : StoredVal) :
    lookupStore (setStore store k v) k = some v := by
  simp [lookupStore, setStore]

theorem lookupStore_set_ne (store : Store) (k k2 : String) (v : StoredVal)
    (h : ¬ (k = k2)) : lookupStore (setStore store k v) k2 = lookupStore store k2 := by
  have hk : (k == k2) = false := by
    simp [h]
  simp [lookupStore, setStore, List.find?, hk]

/-- No handle can make the per-request key collide with the well-known
current-request key (the lengths and letters cannot match). -/
theorem handleKey_ne_currentKey (s : String) :
    ¬ (s ++ "_appauth_authorization_request" = "appauth_current_authorization_request") := by
  intro h
  have hd : s.data ++ ("_appauth_authorization_request" : String).data
      = ("appauth_current_authorization_request" : String).data := congrArg String.data h
  have hsplit : ("appauth_current_authorization_request" : String).data
      = (("appauth_current_authorization_request" : String).data.take 7)
        ++ (("appauth_current_authorization_request" : String).data.drop 7) :=
    (List.take_append_drop 7 _).symm
  have hlen : ("_appauth_authorization_request" : String).data.length
      = (("appauth_current_authorization_request" : String).data.drop 7).length := by decide
  have hinj := List.append_inj' (hd.trans hsplit) hlen
  exact absurd hinj.2 (by decide)

theorem strEndsWith_append (h sfx : String) : strEndsWith (h ++ sfx) sfx = true := by
  unfold strEndsWith
  rw [show (h ++ sfx).data = h.data ++ sfx.data from rfl]
  rw [List.isSuffixOf_iff_suffix]
  exact List.suffix_append h.data sfx.data

/-! Structural lemmas about `consumeOAuth2CodeFromBrowserLocation` and
`run`. -/

/-- Whatever the outcome (code, error, or neither), the consume step performs
exactly one address replacement, through `getURLRemainder` with the parser
state left by the completion step. -/
theorem consume_scrubs (sm : StorageMode) (loc : LocationLike) (st : FacadeState) :
    (OpenIDConnect.consumeOAuth2CodeFromBrowserLocation sm loc st).scrubs
      = [SmarterQueryStringUtils.getURLRemainder
          ((readPendingRequest sm loc).map (fun _ => (SmarterQueryStringUtils.parse loc).2)) loc] := by
  unfold OpenIDConnect.consumeOAuth2CodeFromBrowserLocation
  cases readPendingRequest sm loc with
  | none => rfl
  | some req =>
    simp only [Option.map]
    split
    · split
      · rfl
      · split
        · rfl
        · rfl
    · rfl

/-- Lemma: `run` performs exactly the scrubs of its consume step. -/
theorem run_scrubs (cfg : OpenIDConnectConfig) (client : OpenIDConnect.ClientConfig)
    (sm : StorageMode) (loc : LocationLike) (st : FacadeState) (ts : TimerSys)
    (fetched : Except String OpenIDConnect.TokenResponseModel)
    (decodedExp : Except Unit (Option ℤ)) (now : ℤ) :
    (OpenIDConnect.run cfg client sm loc st ts fetched decodedExp now).scrubs
      = (OpenIDConnect.consumeOAuth2CodeFromBrowserLocation sm loc st).scrubs := by
  unfold OpenIDConnect.run
  dsimp only
  split
  · rfl
  · rfl
  · split
    · rfl
    · rfl

/-- Lemma: a pending request seen through the ephemeral fake store never
carries a PKCE verifier. -/
theorem ephemeral_pending_no_verifier (loc : LocationLike) (req : PendingRequest)
    (h : readPendingRequest StorageMode.ephemeral loc = some req) :
    req.code_verifier = none := by
  unfold readPendingRequest readPendingRequestVia at h
  by_cases htr : jsTruthyStr (lookupParam (SmarterQueryStringUtils.parse loc).1 ("state"))
  · have hcur : FakeOAuth2Store.getItem
        (lookupParam (SmarterQueryStringUtils.parse loc).1 ("state"))
        ("appauth_current_authorization_request")
        = some (StoredVal.str
            ((lookupParam (SmarterQueryStringUtils.parse loc).1 ("state")).getD "")) := by
      simp [FakeOAuth2Store.getItem, htr]
    rw [hcur] at h
    by_cases hne : ((lookupParam (SmarterQueryStringUtils.parse loc).1 ("state")).getD "") = ""
    · simp [hne] at h
    · have hkey : FakeOAuth2Store.getItem
          (lookupParam (SmarterQueryStringUtils.parse loc).1 ("state"))
          (((lookupParam (SmarterQueryStringUtils.parse loc).1 ("state")).getD "")
            ++ "_appauth_authorization_request")
          = some (StoredVal.req
              { state := ((lookupParam (SmarterQueryStringUtils.parse loc).1 ("state")).getD ""),
                code_verifier := none }) := by
        simp [FakeOAuth2Store.getItem, htr, handleKey_ne_currentKey, strEndsWith_append]
      simp only [hne, ne_eq, not_false_eq_true, if_true, hkey] at h
      have h2 : req = { state := ((lookupParam (SmarterQueryStringUtils.parse loc).1 ("state")).getD ""),
                        code_verifier := none } := (Option.some.inj h).symm
      rw [h2]
  · simp [FakeOAuth2Store.getItem, htr] at h

/-- Lemma: in ephemeral mode, the consume step never sets the PKCE
verifier. -/
theorem ephemeral_consume_pkce (loc : LocationLike) (st : FacadeState)
    (h : st.pkceCodeVerifier = none) :
    (OpenIDConnect.consumeOAuth2CodeFromBrowserLocation StorageMode.ephemeral loc st).state.pkceCodeVerifier
      = none := by
  unfold OpenIDConnect.consumeOAuth2CodeFromBrowserLocation
  cases hp : readPendingRequest StorageMode.ephemeral loc with
  | none => exact h
  | some req =>
    have hv := ephemeral_pending_no_verifier loc req hp
    simp only [hv, jsTruthyStr, Bool.false_eq_true, if_false]
    split
    · split
      · exact h
      · split
        · exact h
        · exact h
    · exact h

/-- Lemma: after a durable-mode login persisted state `s` (non-empty) with
verifier `v`, redirect completion reads back exactly that request. -/
theorem readPending_after_login (store : Store) (s v : String) (hs : ¬ (s = ""))
    (loc : LocationLike) :
    readPendingRequest ((OpenIDConnect.redirectForLogin (StorageMode.durable store) s v).2) loc
      = some { state := s, code_verifier := some v } := by
  unfold OpenIDConnect.redirectForLogin performAuthorizationRequest hasFakeStore
  unfold readPendingRequest readPendingRequestVia
  simp only [Bool.not_false]
  rw [lookupStore_set_same]
  simp only [hs, ne_eq, not_false_eq_true, if_true]
  rw [lookupStore_set_ne _ _ _ _ (fun hh => handleKey_ne_currentKey s hh.symm)]
  rw [lookupStore_set_same]

/-- Lemma: `scheduleRenewal` never invokes the access-token callback. -/
theorem accessToken_not_in_schedule (cfg : OpenIDConnectConfig) (st : FacadeState)
    (ts : TimerSys) (now : ℤ) (tok : Option String) :
    Ev.accessToken tok ∉ (OpenIDConnect.scheduleRenewal cfg st ts now).events := by
  unfold OpenIDConnect.scheduleRenewal
  split
  · simp
  · dsimp only
    split
    · simp
    · simp

/-- Lemma: the token exchange never dispatches the access-token callback with
an undefined token. -/
theorem accessToken_none_not_in_obtain (cfg : OpenIDConnectConfig)
    (client : OpenIDConnect.ClientConfig) (ls : String) (st : FacadeState) (ts : TimerSys)
    (ic : Option String) (fetched : Except String OpenIDConnect.TokenResponseModel)
    (dec : Except Unit (Option ℤ)) (now : ℤ) :
    Ev.accessToken none
      ∉ (OpenIDConnect.obtainAndDispatchTokens cfg client ls st ts ic fetched dec now).events := by
  unfold OpenIDConnect.obtainAndDispatchTokens
  cases fetched with
  | error e => simp
  | ok tokens =>
    dsimp only
    split
    · intro hm
      rcases List.mem_append.mp hm with hm | hm
      · rcases List.mem_cons.mp hm with hm | hm
        · exact absurd hm (by simp)
        · split at hm <;> simp at hm
      · exact accessToken_not_in_schedule _ _ _ _ _ hm
    · intro hm
      rcases List.mem_cons.mp hm with hm | hm
      · exact absurd hm (by simp)
      · split at hm <;> simp at hm

/-- Lemma: `run` never dispatches the access-token callback with an
undefined token. -/
theorem accessToken_none_not_in_run (cfg : OpenIDConnectConfig)
    (client : OpenIDConnect.ClientConfig) (sm : StorageMode) (loc : LocationLike)
    (st : FacadeState) (ts : TimerSys)
    (fetched : Except String OpenIDConnect.TokenResponseModel)
    (decodedExp : Except Unit (Option ℤ)) (now : ℤ) :
    Ev.accessToken none
      ∉ (OpenIDConnect.run cfg client sm loc st ts fetched decodedExp now).events := by
  unfold OpenIDConnect.run
  dsimp only
  split
  · simp
  · simp
  · split
    · intro hm
      rcases List.mem_append.mp hm with hm | hm
      · exact accessToken_none_not_in_obtain _ _ _ _ _ _ _ _ _ hm
      · simp at hm
    · exact accessToken_none_not_in_obtain _ _ _ _ _ _ _ _ _

/-- Lemma: the request built by the token exchange is `buildTokenRequest`
over its input state, whatever the fetch outcome. -/
theorem obtain_request (cfg : OpenIDConnectConfig) (client : OpenIDConnect.ClientConfig)
    (ls : String) (st : FacadeState) (ts : TimerSys) (ic : Option String)
    (fetched : Except String OpenIDConnect.TokenResponseModel)
    (dec : Except Unit (Option ℤ)) (now : ℤ) :
    (OpenIDConnect.obtainAndDispatchTokens cfg client ls st ts ic fetched dec now).request
      = OpenIDConnect.buildTokenRequest client ls st ic := by
  unfold OpenIDConnect.obtainAndDispatchTokens
  cases fetched with
  | error e => rfl
  | ok tokens =>
      dsimp only
      split
      · rfl
      · rfl

/-- Lemma: the token request `run` performs, characterized by the outcome of
its consume step: none unless a code was consumed, and otherwise built over
the post-consume state with that code. -/
theorem run_tokenRequest_char (cfg : OpenIDConnectConfig)
    (client : OpenIDConnect.ClientConfig) (sm : StorageMode) (loc : LocationLike)
    (st : FacadeState) (ts : TimerSys)
    (fetched : Except String OpenIDConnect.TokenResponseModel)
    (decodedExp : Except Unit (Option ℤ)) (now : ℤ) :
    (OpenIDConnect.run cfg client sm loc st ts fetched decodedExp now).tokenRequest
      = match (OpenIDConnect.consumeOAuth2CodeFromBrowserLocation sm loc st).outcome with
        | Except.ok (some c) =>
            some (OpenIDConnect.buildTokenRequest client (locToString loc)
              (OpenIDConnect.consumeOAuth2CodeFromBrowserLocation sm loc st).state (some c))
        | _ => none := by
  cases hout : (OpenIDConnect.consumeOAuth2CodeFromBrowserLocation sm loc st).outcome with
  | error e =>
      unfold OpenIDConnect.run
      dsimp only
      rw [hout]
  | ok oc =>
      cases oc with
      | none =>
          unfold OpenIDConnect.run
          dsimp only
          rw [hout]
      | some c =>
          unfold OpenIDConnect.run
          dsimp only
          rw [hout]
          dsimp only
          split
          · rw [obtain_request]
          · rw [obtain_request]

/-- Lemma: consuming the redirect after a durable-mode login whose state
matches the returned one recovers the persisted verifier and the code. -/
theorem consume_after_login (store : Store) (s v c : String) (loc : LocationLike)
    (st : FacadeState)
    (hs : ¬ (s = "")) (hv : ¬ (v = "")) (hc : ¬ (c = ""))
    (hstate : lookupParam (SmarterQueryStringUtils.parse loc).1 ("state") = some s)
    (herr : jsTruthyStr (lookupParam (SmarterQueryStringUtils.parse loc).1 ("error")) = false)
    (hcode : lookupParam (SmarterQueryStringUtils.parse loc).1 ("code") = some c) :
    (OpenIDConnect.consumeOAuth2CodeFromBrowserLocation
        ((OpenIDConnect.redirectForLogin (StorageMode.durable store) s v).2) loc st).state.pkceCodeVerifier
      = some v
    ∧ (OpenIDConnect.consumeOAuth2CodeFromBrowserLocation
        ((OpenIDConnect.redirectForLogin (StorageMode.durable store) s v).2) loc st).outcome
      = Except.ok (some c) := by
  unfold OpenIDConnect.consumeOAuth2CodeFromBrowserLocation
  rw [readPending_after_login store s v hs loc]
  dsimp only
  rw [hstate]
  have hvt : jsTruthyStr (some v) = true := by simp [jsTruthyStr, hv]
  have hct : jsTruthyStr (some c) = true := by simp [jsTruthyStr, hc]
  simp [hvt, hct, herr, hcode]

/-! The claims. -/

/-- C1: for every invocation, `run()` was claimed to return a boolean,
`true` exactly when a defined access token was dispatched, and `false` when
the initial token exchange fails.  Evaluating the embedded `run` at the
failing input — a pending request for state `xyz`, the address carrying
`code=abc&state=xyz`, and a token endpoint rejecting the exchange — shows
the error is reported through the error callback but `run` resolves with
`undefined` (the catch block falls through without a return statement),
not with `false` as the claim, the declared `Promise<boolean>` type, and
the JSDoc of `run` itself state. -/
theorem run_undefined_on_failed_exchange :
    (OpenIDConnect.run exCfg exClient (StorageMode.durable exStore) exLocCode
        FacadeState.init TimerSys.init (Except.error "HTTP 400 invalid_grant")
        (Except.ok none) 1000).returns = Except.ok none
    ∧ ¬ ((OpenIDConnect.run exCfg exClient (StorageMode.durable exStore) exLocCode
        FacadeState.init TimerSys.init (Except.error "HTTP 400 invalid_grant")
        (Except.ok none) 1000).returns = Except.ok (some false))
    ∧ (OpenIDConnect.run exCfg exClient (StorageMode.durable exStore) exLocCode
        FacadeState.init TimerSys.init (Except.error "HTTP 400 invalid_grant")
        (Except.ok none) 1000).events
      = [Ev.error (OIDCError.caught "HTTP 400 invalid_grant")] :=
  ⟨by decide, by decide, by decide⟩

/-- C2: when the computed renewal delay is non-positive
(`minValiditySeconds = 300`, token expiring 200 seconds after `now`),
`scheduleRenewal` was claimed to report the unattainable-headroom error and
arm no timer.  Evaluating the embedded `scheduleRenewal` shows the error is
reported — its own text ends with the words that renewal is disabled — yet,
the error branch lacking a `return`, a timer is still armed with the
non-positive delay of -100000 milliseconds. -/
theorem scheduleRenewal_arms_despite_headroom_error :
    (OpenIDConnect.scheduleRenewal exCfg300
        { FacadeState.init with tokenExpiresEpoch := some 1200 } TimerSys.init 1000).events
      = [Ev.error (OIDCError.unattainableHeadroom (JSNum.num 200) 300)]
    ∧ (OpenIDConnect.scheduleRenewal exCfg300
        { FacadeState.init with tokenExpiresEpoch := some 1200 } TimerSys.init 1000).timers.live
      = [(1, JSNum.num (-100000))]
    ∧ (OpenIDConnect.scheduleRenewal exCfg300
        { FacadeState.init with tokenExpiresEpoch := some 1200 } TimerSys.init 1000).state.timeout
      = some 1 :=
  ⟨by decide, by decide, by decide⟩

/-- C3: at most one renewal timer is ever alive: under the timer invariant,
`scheduleRenewal` leaves at most one live timer (exactly one whenever
`minValiditySeconds` is truthy, because it stops the previous timer before
arming), arming twice in succession still leaves exactly one, and `stop`
cancels the outstanding timer and is idempotent. -/
theorem claim_single_timer (cfg : OpenIDConnectConfig) (st : FacadeState)
    (ts : TimerSys) (now now2 : ℤ) (h : TimerInv st ts) :
    (OpenIDConnect.scheduleRenewal cfg st ts now).timers.live.length ≤ 1
    ∧ (jsTruthyNum cfg.minValiditySeconds = true →
        (OpenIDConnect.scheduleRenewal cfg st ts now).timers.live.length = 1
        ∧ (OpenIDConnect.scheduleRenewal cfg
            (OpenIDConnect.scheduleRenewal cfg st ts now).state
            (OpenIDConnect.scheduleRenewal cfg st ts now).timers now2).timers.live.length = 1)
    ∧ (OpenIDConnect.stop st ts).live = []
    ∧ OpenIDConnect.stop st (OpenIDConnect.stop st ts) = OpenIDConnect.stop st ts := by
  refine ⟨timerInv_live_length_le_one (scheduleRenewal_preserves_inv cfg now h), ?_,
    stop_live_nil h, stop_idempotent st ts⟩
  intro htr
  exact ⟨scheduleRenewal_arms_one cfg now h htr,
    scheduleRenewal_arms_one cfg now2 (scheduleRenewal_preserves_inv cfg now h) htr⟩

/-- Witness for C3 at a concrete state. -/
theorem claim_single_timer_witness :
    (OpenIDConnect.scheduleRenewal exCfg300 FacadeState.init TimerSys.init 1000).timers.live.length = 1
    ∧ OpenIDConnect.stop FacadeState.init (OpenIDConnect.stop FacadeState.init TimerSys.init)
        = OpenIDConnect.stop FacadeState.init TimerSys.init :=
  ⟨((claim_single_timer exCfg300 FacadeState.init TimerSys.init 1000 1100 timerInv_init).2.1
      (by decide)).1,
   (claim_single_timer exCfg300 FacadeState.init TimerSys.init 1000 1100 timerInv_init).2.2.2⟩

/-- C7: whatever the outcome of the revocation request, `logout` stops the
renewal timer (no timer stays live, under the timer invariant), clears the
held refresh token and the stored expiry, and fires the logout callback
exactly once. -/
theorem claim_logout_cleanup (st : FacadeState) (ts : TimerSys)
    (revocation : Except String Bool) (h : TimerInv st ts) :
    (OpenIDConnect.logout st ts revocation).timers.live = []
    ∧ (OpenIDConnect.logout st ts revocation).state.refreshToken = none
    ∧ (OpenIDConnect.logout st ts revocation).state.tokenExpiresEpoch = none
    ∧ (OpenIDConnect.logout st ts revocation).events = [Ev.logoutDone] := by
  unfold OpenIDConnect.logout
  cases revocation with
  | ok b => exact ⟨stop_live_nil h, rfl, rfl, rfl⟩
  | error e => exact ⟨stop_live_nil h, rfl, rfl, rfl⟩

/-- Witness for C7: logging out of a concrete state with a failing
revocation still cleans up and notifies once. -/
theorem claim_logout_cleanup_witness :
    (OpenIDConnect.logout FacadeState.init TimerSys.init
        (Except.error "revocation failed")).timers.live = []
    ∧ (OpenIDConnect.logout FacadeState.init TimerSys.init
        (Except.error "revocation failed")).events = [Ev.logoutDone] :=
  ⟨(claim_logout_cleanup FacadeState.init TimerSys.init
      (Except.error "revocation failed") timerInv_init).1,
   (claim_logout_cleanup FacadeState.init TimerSys.init
      (Except.error "revocation failed") timerInv_init).2.2.2⟩

/-- C8 counterexample: the claim says a failing revocation request does not
cause `logout()` to reject.  Evaluating the embedded `logout` with a failing
revocation shows the promise rejects with that error (the try block around
`revokeTokens` has a finally clause but no catch), and no error callback is
fired either. -/
theorem claim_logout_rejects_counterexample :
    (OpenIDConnect.logout FacadeState.init TimerSys.init
        (Except.error "revocation failed")).returns = Except.error "revocation failed"
    ∧ ¬ ((OpenIDConnect.logout FacadeState.init TimerSys.init
        (Except.error "revocation failed")).returns = Except.ok ())
    ∧ (OpenIDConnect.logout FacadeState.init TimerSys.init
        (Except.error "revocation failed")).events = [Ev.logoutDone] :=
  ⟨by decide, by decide, by decide⟩

/-- C8 (amended): errors raised inside `run()` and inside the renewal timer
callback are caught at that boundary and translated into a single error
callback invocation, and `run()` never rejects; but `logout()` has no catch
clause — a failing revocation runs the cleanup and the logout callback and
then rejects `logout()` with that error, without any error callback — and
`login()` installs no rejection handler, passing a `redirectForLogin`
failure through unhandled. -/
theorem claim_error_boundaries_amended (cfg : OpenIDConnectConfig)
    (client : OpenIDConnect.ClientConfig) (sm : StorageMode) (loc : LocationLike)
    (st : FacadeState) (ts : TimerSys)
    (fetched : Except String OpenIDConnect.TokenResponseModel)
    (decodedExp : Except Unit (Option ℤ)) (now : ℤ) (ls e : String) :
    (∀ e2, ¬ ((OpenIDConnect.run cfg client sm loc st ts fetched decodedExp now).returns
        = Except.error e2))
    ∧ ((OpenIDConnect.consumeOAuth2CodeFromBrowserLocation sm loc st).outcome = Except.error e →
        (OpenIDConnect.run cfg client sm loc st ts fetched decodedExp now).events
          = [Ev.error (OIDCError.caught e)])
    ∧ (∀ c, (OpenIDConnect.consumeOAuth2CodeFromBrowserLocation sm loc st).outcome
          = Except.ok (some c) →
        (OpenIDConnect.run cfg client sm loc st ts (Except.error e) decodedExp now).events
          = [Ev.error (OIDCError.caught e)])
    ∧ (OpenIDConnect.onRenewalTimerFired cfg client ls st ts (Except.error e)
        decodedExp now).1.events = [Ev.error (OIDCError.caught e)]
    ∧ (OpenIDConnect.logout st ts (Except.error e)).returns = Except.error e
    ∧ (OpenIDConnect.logout st ts (Except.error e)).state.refreshToken = none
    ∧ (OpenIDConnect.logout st ts (Except.error e)).events = [Ev.logoutDone]
    ∧ OpenIDConnect.login (Except.error e) = Except.error e := by
  refine ⟨?_, ?_, ?_, ?_, rfl, rfl, rfl, rfl⟩
  · intro e2
    unfold OpenIDConnect.run
    dsimp only
    split
    · simp
    · simp
    · split
      · simp
      · simp
  · intro hout
    unfold OpenIDConnect.run
    dsimp only
    rw [hout]
  · intro c hout
    unfold OpenIDConnect.run
    dsimp only
    rw [hout]
    dsimp only
    rw [show (OpenIDConnect.obtainAndDispatchTokens cfg client (locToString loc)
        (OpenIDConnect.consumeOAuth2CodeFromBrowserLocation sm loc st).state ts (some c)
        (Except.error e) decodedExp now)
      = { state := (OpenIDConnect.consumeOAuth2CodeFromBrowserLocation sm loc st).state,
          timers := ts, events := [],
          request := OpenIDConnect.buildTokenRequest client (locToString loc)
            (OpenIDConnect.consumeOAuth2CodeFromBrowserLocation sm loc st).state (some c),
          outcome := Except.error e } from rfl]
    rfl
  · unfold OpenIDConnect.onRenewalTimerFired
    rw [show (OpenIDConnect.obtainAndDispatchTokens cfg client ls st ts none
        (Except.error e) decodedExp now)
      = { state := st, timers := ts, events := [],
          request := OpenIDConnect.buildTokenRequest client ls st none,
          outcome := Except.error e } from rfl]
    rfl

/-- Witness for C8 (amended) at a concrete input: the consume step of the
durable fixture throws nothing, so we use the code path with a failing
exchange and the logout path with a failing revocation. -/
theorem claim_error_boundaries_amended_witness :
    (OpenIDConnect.run exCfg exClient (StorageMode.durable exStore) exLocCode
        FacadeState.init TimerSys.init (Except.error "boom") (Except.ok none) 1000).events
      = [Ev.error (OIDCError.caught "boom")]
    ∧ (OpenIDConnect.logout FacadeState.init TimerSys.init (Except.error "boom")).returns
      = Except.error "boom" :=
  ⟨(claim_error_boundaries_amended exCfg exClient (StorageMode.durable exStore) exLocCode
      FacadeState.init TimerSys.init (Except.error "boom") (Except.ok none) 1000 "x" "boom").2.2.1
      "abc" (by decide),
   (claim_error_boundaries_amended exCfg exClient (StorageMode.durable exStore) exLocCode
      FacadeState.init TimerSys.init (Except.error "boom") (Except.ok none) 1000 "x" "boom").2.2.2.2.1⟩

/-- C9 counterexample: the claim says every completed `logout()` dispatches
the access-token callback with an undefined token.  Evaluating the embedded
`logout` on a successful revocation shows a completed logout whose only
callback is the logout callback: the access-token callback is never invoked
with an undefined token by this facade (the React binding wires its logout
callback to that behavior, not the facade). -/
theorem claim_logout_no_undefined_token_counterexample :
    (OpenIDConnect.logout FacadeState.init TimerSys.init (Except.ok true)).events
      = [Ev.logoutDone]
    ∧ Ev.accessToken none
        ∉ (OpenIDConnect.logout FacadeState.init TimerSys.init (Except.ok true)).events
    ∧ (OpenIDConnect.logout FacadeState.init TimerSys.init (Except.ok true)).returns
      = Except.ok () :=
  ⟨by decide, by decide, by decide⟩

/-- C9 (amended): the facade never invokes the access-token callback with an
undefined token — neither a token exchange inside `run` nor a renewal-timer
exchange dispatches it, and `logout()` signals completion through the logout
callback exactly once without touching the access-token callback. -/
theorem claim_accessToken_undefined_amended (st : FacadeState) (ts : TimerSys)
    (rev : Except String Bool) (cfg : OpenIDConnectConfig)
    (client : OpenIDConnect.ClientConfig) (sm : StorageMode) (loc : LocationLike)
    (fetched : Except String OpenIDConnect.TokenResponseModel)
    (decodedExp : Except Unit (Option ℤ)) (now : ℤ) (ls : String) :
    (OpenIDConnect.logout st ts rev).events = [Ev.logoutDone]
    ∧ Ev.accessToken none
        ∉ (OpenIDConnect.run cfg client sm loc st ts fetched decodedExp now).events
    ∧ Ev.accessToken none
        ∉ (OpenIDConnect.onRenewalTimerFired cfg client ls st ts fetched decodedExp now).1.events := by
  refine ⟨?_, accessToken_none_not_in_run cfg client sm loc st ts fetched decodedExp now, ?_⟩
  · unfold OpenIDConnect.logout
    cases rev with
    | ok b => rfl
    | error e => rfl
  · unfold OpenIDConnect.onRenewalTimerFired
    dsimp only
    split
    · intro hm
      rcases List.mem_append.mp hm with hm | hm
      · exact accessToken_none_not_in_obtain _ _ _ _ _ _ _ _ _ hm
      · exact accessToken_not_in_schedule _ _ _ _ _ hm
    · intro hm
      rcases List.mem_append.mp hm with hm | hm
      · exact accessToken_none_not_in_obtain _ _ _ _ _ _ _ _ _ hm
      · simp at hm

/-- C10 counterexample: the claim says that when no expiry epoch is held,
`scheduleRenewal` arms no timer even if a refresh token is present.
Evaluating the embedded `scheduleRenewal` on a state holding a refresh token
but no expiry (as after an exchange whose response had no ID token) shows a
timer is armed anyway, with a `NaN` delay — and the `NaN` even suppresses
the headroom error, because `NaN <= 0` is false. -/
theorem claim_schedule_without_expiry_counterexample :
    (OpenIDConnect.scheduleRenewal exCfg300
        { FacadeState.init with refreshToken := some "r" } TimerSys.init 1000).timers.live
      = [(1, JSNum.nan)]
    ∧ (OpenIDConnect.scheduleRenewal exCfg300
        { FacadeState.init with refreshToken := some "r" } TimerSys.init 1000).events = []
    ∧ ¬ ((OpenIDConnect.scheduleRenewal exCfg300
        { FacadeState.init with refreshToken := some "r" } TimerSys.init 1000).timers.live = []) :=
  ⟨by decide, by decide, by decide⟩

/-- C10 (amended): renewal scheduling is invoked only by a successful token
exchange that returned a refresh token (the exchange leaves the timer table
untouched when the fetch fails or the response carries no truthy refresh
token), and `scheduleRenewal` itself skips only when `minValiditySeconds` is
falsy; it does not check that an expiry epoch is held — with
`minValiditySeconds` set it arms exactly one timer even when the expiry is
`undefined`, with a `NaN` delay and no headroom error. -/
theorem claim_renewal_gating_amended (cfg : OpenIDConnectConfig)
    (client : OpenIDConnect.ClientConfig) (ls : String) (st : FacadeState)
    (ts : TimerSys) (ic : Option String) (dec : Except Unit (Option ℤ)) (now : ℤ)
    (h : TimerInv st ts) :
    (jsTruthyNum cfg.minValiditySeconds = false →
        OpenIDConnect.scheduleRenewal cfg st ts now
          = { state := st, timers := ts, events := [] })
    ∧ (jsTruthyNum cfg.minValiditySeconds = true →
        (OpenIDConnect.scheduleRenewal cfg st ts now).timers.live.length = 1)
    ∧ (st.tokenExpiresEpoch = none → jsTruthyNum cfg.minValiditySeconds = true →
        (OpenIDConnect.scheduleRenewal cfg st ts now).events = []
        ∧ (OpenIDConnect.scheduleRenewal cfg st ts now).timers.live
            = [(ts.nextHandle, JSNum.nan)])
    ∧ (∀ tokens, jsTruthyStr tokens.refreshToken = false →
        (OpenIDConnect.obtainAndDispatchTokens cfg client ls st ts ic
            (Except.ok tokens) dec now).timers = ts)
    ∧ (∀ e, (OpenIDConnect.obtainAndDispatchTokens cfg client ls st ts ic
            (Except.error e) dec now).timers = ts) := by
  refine ⟨?_, fun htr => scheduleRenewal_arms_one cfg now h htr, ?_, ?_, fun e => rfl⟩
  · intro hf
    unfold OpenIDConnect.scheduleRenewal
    rw [if_pos (by rw [hf]; exact fun hh => Bool.false_ne_true hh)]
  · intro hexp htr
    unfold OpenIDConnect.scheduleRenewal
    rw [if_neg (by rw [htr]; exact fun hh => hh rfl)]
    dsimp only
    rw [show OpenIDConnect.expiresInSeconds st now = JSNum.nan from by
      unfold OpenIDConnect.expiresInSeconds
      rw [hexp]
      rfl]
    have hnext : (OpenIDConnect.stop st ts).nextHandle = ts.nextHandle := by
      unfold OpenIDConnect.stop
      cases st.timeout with
      | none => rfl
      | some k => rfl
    constructor
    · rfl
    · dsimp [TimerSys.setT]
      rw [stop_live_nil h, hnext]
      rfl
  · intro tokens hrt
    unfold OpenIDConnect.obtainAndDispatchTokens
    dsimp only
    rw [hrt]
    simp

/-- Witness for C10 (amended) at the concrete no-expiry state. -/
theorem claim_renewal_gating_amended_witness :
    (OpenIDConnect.scheduleRenewal exCfg300
        { FacadeState.init with refreshToken := some "r" } TimerSys.init 1000).events = []
    ∧ (OpenIDConnect.scheduleRenewal exCfg300
        { FacadeState.init with refreshToken := some "r" } TimerSys.init 1000).timers.live
      = [(1, JSNum.nan)] :=
  (claim_renewal_gating_amended exCfg300 exClient "https://app.example/"
      { FacadeState.init with refreshToken := some "r" } TimerSys.init none
      (Except.ok none) 1000
      (by
        refine ⟨?_, ?_, ?_, ?_, ?_⟩ <;> simp [TimerSys.init, FacadeState.init])).2.2.1
    rfl (by decide)

/-- C5: in ephemeral-storage mode the login redirect is built with PKCE
disabled; the consume step can never record a verifier (the fake store
fabricates pending requests without one), so the authorization-code token
request carries no `code_verifier` entry in its extras, and a refresh-grant
request never carries one in any mode. -/
theorem claim_ephemeral_no_pkce (s v ls : String) (loc : LocationLike)
    (st stAny : FacadeState) (cfg : OpenIDConnectConfig)
    (client : OpenIDConnect.ClientConfig) (ts : TimerSys)
    (fetched : Except String OpenIDConnect.TokenResponseModel)
    (decodedExp : Except Unit (Option ℤ)) (now : ℤ)
    (h : st.pkceCodeVerifier = none) :
    (OpenIDConnect.redirectForLogin StorageMode.ephemeral s v).1 = false
    ∧ (OpenIDConnect.consumeOAuth2CodeFromBrowserLocation StorageMode.ephemeral
        loc st).state.pkceCodeVerifier = none
    ∧ (∀ r, (OpenIDConnect.run cfg client StorageMode.ephemeral loc st ts fetched
          decodedExp now).tokenRequest = some r → r.extras_code_verifier = none)
    ∧ (OpenIDConnect.buildTokenRequest client ls stAny none).extras_code_verifier = none := by
  refine ⟨rfl, ephemeral_consume_pkce loc st h, ?_, rfl⟩
  intro r hr
  rw [run_tokenRequest_char] at hr
  rcases hout : (OpenIDConnect.consumeOAuth2CodeFromBrowserLocation StorageMode.ephemeral
      loc st).outcome with e | oc
  · rw [hout] at hr
    exact absurd hr (by simp)
  · cases oc with
    | none =>
        rw [hout] at hr
        exact absurd hr (by simp)
    | some c =>
        rw [hout] at hr
        have hreq := Option.some.inj hr
        rw [← hreq]
        unfold OpenIDConnect.buildTokenRequest
        dsimp only
        rw [ephemeral_consume_pkce loc st h]
        split
        · rfl
        · rfl

/-- Witness for C5 at the concrete address carrying a code: the exchange
request built by `run` in ephemeral mode has no verifier. -/
theorem claim_ephemeral_no_pkce_witness :
    (OpenIDConnect.redirectForLogin StorageMode.ephemeral "xyz" "v1").1 = false
    ∧ (∀ r, (OpenIDConnect.run exCfg exClient StorageMode.ephemeral exLocCode
          FacadeState.init TimerSys.init
          (Except.ok { accessToken := "tok", refreshToken := none, idToken := none })
          (Except.ok none) 1000).tokenRequest = some r → r.extras_code_verifier = none) :=
  ⟨(claim_ephemeral_no_pkce "xyz" "v1" "ls" exLocCode FacadeState.init FacadeState.init
      exCfg exClient TimerSys.init
      (Except.ok { accessToken := "tok", refreshToken := none, idToken := none })
      (Except.ok none) 1000 rfl).1,
   (claim_ephemeral_no_pkce "xyz" "v1" "ls" exLocCode FacadeState.init FacadeState.init
      exCfg exClient TimerSys.init
      (Except.ok { accessToken := "tok", refreshToken := none, idToken := none })
      (Except.ok none) 1000 rfl).2.2.1⟩

/-- C6: in durable-storage mode, the PKCE verifier generated and persisted
during `login()` for a given state is exactly the `code_verifier` extra of
the code-exchange request subsequently performed when the redirect returns
that matching state: the consume step records the persisted verifier and
the request `run` builds carries it. -/
theorem claim_durable_pkce_verifier_roundtrip (store : Store) (s v c : String)
    (loc : LocationLike) (st : FacadeState) (cfg : OpenIDConnectConfig)
    (client : OpenIDConnect.ClientConfig) (ts : TimerSys)
    (fetched : Except String OpenIDConnect.TokenResponseModel)
    (decodedExp : Except Unit (Option ℤ)) (now : ℤ)
    (hs : ¬ (s = "")) (hv : ¬ (v = "")) (hc : ¬ (c = ""))
    (hstate : lookupParam (SmarterQueryStringUtils.parse loc).1 ("state") = some s)
    (herr : jsTruthyStr (lookupParam (SmarterQueryStringUtils.parse loc).1 ("error")) = false)
    (hcode : lookupParam (SmarterQueryStringUtils.parse loc).1 ("code") = some c) :
    (OpenIDConnect.redirectForLogin (StorageMode.durable store) s v).1 = true
    ∧ (OpenIDConnect.consumeOAuth2CodeFromBrowserLocation
        ((OpenIDConnect.redirectForLogin (StorageMode.durable store) s v).2)
        loc st).state.pkceCodeVerifier = some v
    ∧ ((OpenIDConnect.run cfg client
          ((OpenIDConnect.redirectForLogin (StorageMode.durable store) s v).2)
          loc st ts fetched decodedExp now).tokenRequest.map
        (fun r => r.extras_code_verifier)) = some (some v) := by
  obtain ⟨hpk, hout⟩ := consume_after_login store s v c loc st hs hv hc hstate herr hcode
  refine ⟨rfl, hpk, ?_⟩
  rw [run_tokenRequest_char, hout]
  dsimp only [Option.map]
  unfold OpenIDConnect.buildTokenRequest
  dsimp only
  rw [hpk]
  have hct : jsTruthyStr (some c) = true := by simp [jsTruthyStr, hc]
  rw [hct]
  rfl

/-- Witness for C6: logging in over an empty durable store with state `xyz`
and verifier `v1`, then returning with `code=abc&state=xyz`, attaches
exactly `v1`. -/
theorem claim_durable_pkce_verifier_roundtrip_witness :
    ((OpenIDConnect.run exCfg exClient
        ((OpenIDConnect.redirectForLogin (StorageMode.durable []) "xyz" "v1").2)
        exLocCode FacadeState.init TimerSys.init
        (Except.ok { accessToken := "tok", refreshToken := none, idToken := none })
        (Except.ok none) 1000).tokenRequest.map
      (fun r => r.extras_code_verifier)) = some (some "v1") :=
  (claim_durable_pkce_verifier_roundtrip [] "xyz" "v1" "abc" exLocCode FacadeState.init
      exCfg exClient TimerSys.init
      (Except.ok { accessToken := "tok", refreshToken := none, idToken := none })
      (Except.ok none) 1000
      (by decide) (by decide) (by decide) (by decide) (by decide) (by decide)).2.2

/-! Lemmas characterizing the scrub on canonical addresses. -/

theorem smarterParse_canon (origin path : String) (qs hs : List (String × String))
    (hq : ∀ p ∈ qs, CanonChars p) (hh : ∀ p ∈ hs, CanonChars p) :
    SmarterQueryStringUtils.parse
        { origin := origin, pathname := path, search := searchOf qs, hash := hashOf hs }
      = if qs = [] then (hs, true) else (qs, false) := by
  unfold SmarterQueryStringUtils.parse
  by_cases hq0 : qs = []
  · subst hq0
    rw [show searchOf ([] : List (String × String)) = "" from rfl]
    rw [parseQueryString_empty]
    by_cases hh0 : hs = []
    · subst hh0
      simp [hashOf, parseQueryString_empty]
    · rw [show hashOf hs = "#" ++ stringifyParams hs from by unfold hashOf; rw [if_neg hh0]]
      rw [parseQueryString_stringify_hash hs hh]
      simp
  · rw [show searchOf qs = "?" ++ stringifyParams qs from by unfold searchOf; rw [if_neg hq0]]
    rw [parseQueryString_stringify qs hq]
    simp [hq0]

theorem getURLRemainder_query (useHash : Option Bool) (origin path hashRaw : String)
    (qs : List (String × String)) (hq : ∀ p ∈ qs, CanonChars p) (hq0 : ¬ (qs = []))
    (huh : useHash.getD false = false) :
    SmarterQueryStringUtils.getURLRemainder useHash
        { origin := origin, pathname := path, search := searchOf qs, hash := hashRaw }
      = origin ++ path
        ++ (if qs.filter (fun p => decide (p.1 ∉ SmarterQueryStringUtils.protocolParams)) = []
            then ""
            else "?" ++ stringifyParams
              (qs.filter (fun p => decide (p.1 ∉ SmarterQueryStringUtils.protocolParams))))
        ++ hashRaw := by
  unfold SmarterQueryStringUtils.getURLRemainder
  dsimp only
  rw [huh]
  simp only [Bool.false_eq_true, if_false]
  rw [show searchOf qs = "?" ++ stringifyParams qs from by unfold searchOf; rw [if_neg hq0]]
  rw [parseQueryString_stringify qs hq]
  by_cases hfil : qs.filter (fun p => decide (p.1 ∉ SmarterQueryStringUtils.protocolParams)) = []
  · rw [hfil]
    simp [stringifyParams_nil]
  · obtain ⟨f, fs, hffs⟩ : ∃ f fs,
        qs.filter (fun p => decide (p.1 ∉ SmarterQueryStringUtils.protocolParams)) = f :: fs := by
      cases h2 : qs.filter (fun p => decide (p.1 ∉ SmarterQueryStringUtils.protocolParams)) with
      | nil => exact absurd h2 hfil
      | cons f fs => exact ⟨f, fs, rfl⟩
    rw [hffs]
    simp [stringifyParams_ne_empty f fs]

theorem getURLRemainder_frag (origin path searchRaw : String)
    (hs : List (String × String)) (hh : ∀ p ∈ hs, CanonChars p) :
    SmarterQueryStringUtils.getURLRemainder (some true)
        { origin := origin, pathname := path, search := searchRaw, hash := hashOf hs }
      = origin ++ path ++ searchRaw
        ++ (if hs.filter (fun p => decide (p.1 ∉ SmarterQueryStringUtils.protocolParams)) = []
            then ""
            else "#" ++ stringifyParams
              (hs.filter (fun p => decide (p.1 ∉ SmarterQueryStringUtils.protocolParams)))) := by
  unfold SmarterQueryStringUtils.getURLRemainder
  dsimp only
  rw [show ((some true).getD false) = true from rfl]
  simp only [if_pos rfl, if_true]
  by_cases hh0 : hs = []
  · subst hh0
    simp [hashOf, parseQueryString_empty, stringifyParams_nil]
  · rw [show hashOf hs = "#" ++ stringifyParams hs from by unfold hashOf; rw [if_neg hh0]]
    rw [parseQueryString_stringify_hash hs hh]
    by_cases hfil : hs.filter (fun p => decide (p.1 ∉ SmarterQueryStringUtils.protocolParams)) = []
    · rw [hfil]
      simp [stringifyParams_nil]
    · obtain ⟨f, fs, hffs⟩ : ∃ f fs,
          hs.filter (fun p => decide (p.1 ∉ SmarterQueryStringUtils.protocolParams)) = f :: fs := by
        cases h2 : hs.filter (fun p => decide (p.1 ∉ SmarterQueryStringUtils.protocolParams)) with
        | nil => exact absurd h2 hfil
        | cons f fs => exact ⟨f, fs, rfl⟩
      rw [hffs]
      simp [stringifyParams_ne_empty f fs]

/-- C4 counterexample: the claim says the scrub removes the four protocol
parameters from whichever of the two locations held them.  At the address
`https://app.example/?foo=1#code=abc&state=xyz` — protocol parameters in the
fragment, one unrelated parameter in the query — the parser selects the
query (it only falls back to the fragment when the query parses to an empty
map), so the consume step replaces the address with itself: `code` and
`state` survive in the fragment, and no code is consumed either. -/
theorem claim_scrub_counterexample :
    (OpenIDConnect.consumeOAuth2CodeFromBrowserLocation (StorageMode.durable exStore)
        exLocBoth FacadeState.init).scrubs = [locToString exLocBoth]
    ∧ locToString exLocBoth = "https://app.example/?foo=1#code=abc&state=xyz"
    ∧ (OpenIDConnect.consumeOAuth2CodeFromBrowserLocation (StorageMode.durable exStore)
        exLocBoth FacadeState.init).outcome = Except.ok none :=
  ⟨by decide, by decide, by decide⟩

/-- C4 (amended): the address is scrubbed exactly once per `run()`, whatever
the outcome.  The scrub operates on the component the parser selected: the
query string whenever it holds any parameter at all — removing exactly the
four protocol parameters from it, preserving every other query parameter in
order, and keeping the fragment verbatim even when protocol parameters sit
there — and the fragment only when the query parses to an empty map and a
pending authorization request was found; when the query is empty and no
pending request exists the parser never runs and the fragment is kept
verbatim. -/
theorem claim_scrub_amended (origin path : String) (qs hs : List (String × String))
    (sm : StorageMode) (st : FacadeState) (cfg : OpenIDConnectConfig)
    (client : OpenIDConnect.ClientConfig) (ts : TimerSys)
    (fetched : Except String OpenIDConnect.TokenResponseModel)
    (decodedExp : Except Unit (Option ℤ)) (now : ℤ)
    (hq : CanonParams qs) (hh : CanonParams hs) :
    (OpenIDConnect.consumeOAuth2CodeFromBrowserLocation sm
        { origin := origin, pathname := path, search := searchOf qs, hash := hashOf hs }
        st).scrubs.length = 1
    ∧ (OpenIDConnect.run cfg client sm
        { origin := origin, pathname := path, search := searchOf qs, hash := hashOf hs }
        st ts fetched decodedExp now).scrubs
      = (OpenIDConnect.consumeOAuth2CodeFromBrowserLocation sm
          { origin := origin, pathname := path, search := searchOf qs, hash := hashOf hs }
          st).scrubs
    ∧ (¬ (qs = []) →
        (OpenIDConnect.consumeOAuth2CodeFromBrowserLocation sm
            { origin := origin, pathname := path, search := searchOf qs, hash := hashOf hs }
            st).scrubs
          = [origin ++ path
              ++ (if qs.filter (fun p => decide (p.1 ∉ SmarterQueryStringUtils.protocolParams)) = []
                  then ""
                  else "?" ++ stringifyParams
                    (qs.filter (fun p => decide (p.1 ∉ SmarterQueryStringUtils.protocolParams))))
              ++ hashOf hs])
    ∧ (qs = [] →
        ¬ (readPendingRequest sm
            { origin := origin, pathname := path, search := searchOf qs, hash := hashOf hs }
            = none) →
        (OpenIDConnect.consumeOAuth2CodeFromBrowserLocation sm
            { origin := origin, pathname := path, search := searchOf qs, hash := hashOf hs }
            st).scrubs
          = [origin ++ path ++ ""
              ++ (if hs.filter (fun p => decide (p.1 ∉ SmarterQueryStringUtils.protocolParams)) = []
                  then ""
                  else "#" ++ stringifyParams
                    (hs.filter (fun p => decide (p.1 ∉ SmarterQueryStringUtils.protocolParams))))])
    ∧ (qs = [] →
        readPendingRequest sm
            { origin := origin, pathname := path, search := searchOf qs, hash := hashOf hs }
          = none →
        (OpenIDConnect.consumeOAuth2CodeFromBrowserLocation sm
            { origin := origin, pathname := path, search := searchOf qs, hash := hashOf hs }
            st).scrubs
          = [origin ++ path ++ "" ++ hashOf hs]) := by
  refine ⟨?_, run_scrubs cfg client sm _ st ts fetched decodedExp now, ?_, ?_, ?_⟩
  · rw [consume_scrubs]
    rfl
  · intro hq0
    rw [consume_scrubs]
    have hpar := smarterParse_canon origin path qs hs hq.1 hh.1
    rw [if_neg hq0] at hpar
    cases hrp : readPendingRequest sm
        { origin := origin, pathname := path, search := searchOf qs, hash := hashOf hs } with
    | none =>
        dsimp only [Option.map]
        rw [getURLRemainder_query none origin path (hashOf hs) qs hq.1 hq0 rfl]
    | some req =>
        dsimp only [Option.map]
        rw [hpar]
        rw [getURLRemainder_query (some false) origin path (hashOf hs) qs hq.1 hq0 rfl]
  · intro hq0 hrp
    subst hq0
    rw [consume_scrubs]
    have hpar := smarterParse_canon origin path [] hs hq.1 hh.1
    rw [if_pos rfl] at hpar
    cases hrpc : readPendingRequest sm
        { origin := origin, pathname := path,
          search := searchOf ([] : List (String × String)), hash := hashOf hs } with
    | none => exact absurd hrpc hrp
    | some req =>
        dsimp only [Option.map]
        rw [hpar]
        rw [show SmarterQueryStringUtils.getURLRemainder (some (hs, true).2)
              { origin := origin, pathname := path,
                search := searchOf ([] : List (String × String)), hash := hashOf hs }
            = SmarterQueryStringUtils.getURLRemainder (some true)
              { origin := origin, pathname := path,
                search := searchOf ([] : List (String × String)), hash := hashOf hs } from rfl]
        rw [getURLRemainder_frag origin path (searchOf ([] : List (String × String))) hs hh.1]
        rfl
  · intro hq0 hrp
    subst hq0
    rw [consume_scrubs, hrp]
    rfl

/-- Witness for C4 (amended): at the canonical address
`https://app.example/?code=abc&state=xyz&foo=bar`, the scrub keeps exactly
`foo=bar` and the empty fragment. -/
theorem claim_scrub_amended_witness :
    (OpenIDConnect.consumeOAuth2CodeFromBrowserLocation (StorageMode.durable exStore)
        { origin := "https://app.example", pathname := "/",
          search := searchOf [("code", "abc"), ("state", "xyz"), ("foo", "bar")],
          hash := hashOf [] }
        FacadeState.init).scrubs
      = ["https://app.example" ++ "/"
          ++ (if ([("code", "abc"), ("state", "xyz"), ("foo", "bar")].filter
                  (fun p => decide (p.1 ∉ SmarterQueryStringUtils.protocolParams))) = []
              then ""
              else "?" ++ stringifyParams
                ([("code", "abc"), ("state", "xyz"), ("foo", "bar")].filter
                  (fun p => decide (p.1 ∉ SmarterQueryStringUtils.protocolParams))))
          ++ hashOf []] :=
  (claim_scrub_amended "https://app.example" "/"
      [("code", "abc"), ("state", "xyz"), ("foo", "bar")] [] (StorageMode.durable exStore)
      FacadeState.init exCfg exClient TimerSys.init
      (Except.ok { accessToken := "tok", refreshToken := none, idToken := none })
      (Except.ok none) 1000 (by decide) (by decide)).2.2.1 (by decide)

end OIDC
